import Mathlib

/-!
Verification of the movie-analytics batch pipeline (`src/main.py`).

The pandas program is shallowly embedded: a `Table` is a column header
together with a list of rows, a cell is a `Value` (null / text / rational
number / calendar date).  Each pipeline stage of the source is translated
into a Lean function on `Table`; fallible stages (pandas operations that
raise `KeyError` / `ValueError`) return `Except String Table`.
-/

namespace MovieETL

/-- A cell of the table: pandas `NaN`/`NaT` is `null`, text is `str`,
numbers (pandas float/int columns, idealised as rationals) are `num`,
parsed dates (`datetime64`) are `date y m d`. -/
inductive Value where
  | null : Value
  | str : String → Value
  | num : Rat → Value
  | date : Nat → Nat → Nat → Value
deriving DecidableEq, Repr

/-- `true` exactly on the null cell (pandas `isna`). -/
def Value.isNull : Value → Bool
  | Value.null => true
  | _ => false

/-- A data frame: named columns and rows of cells.  Rows are accessed
positionally; `getCell` returns `null` past the end of a row. -/
structure Table where
  header : List String
  rows : List (List Value)
deriving DecidableEq, Repr

instance : DecidableEq (Except String Table) := fun a b =>
  match a, b with
  | Except.error e, Except.error f =>
    if h : e = f then Decidable.isTrue (h ▸ rfl)
    else Decidable.isFalse (fun hh => h (Except.error.inj hh))
  | Except.ok x, Except.ok y =>
    if h : x = y then Decidable.isTrue (h ▸ rfl)
    else Decidable.isFalse (fun hh => h (Except.ok.inj hh))
  | Except.error _, Except.ok _ => Decidable.isFalse (fun hh => Except.noConfusion hh)
  | Except.ok _, Except.error _ => Decidable.isFalse (fun hh => Except.noConfusion hh)

/-- Cell of row `r` at column position `i` (null when the row is short). -/
def getCell (r : List Value) (i : Nat) : Value :=
  r.getD i Value.null

/-- Position of the first column named `c`, as pandas column lookup. -/
def colIdx : List String → String → Option Nat
  | [], _ => none
  | h :: t, c => if h = c then some 0 else (colIdx t c).map (· + 1)

/-- Cell of row `r` in the column named `c` of table `t`. -/
def colCell (t : Table) (c : String) (r : List Value) : Value :=
  match colIdx t.header c with
  | some i => getCell r i
  | none => Value.null

/-- Write `v` at position `i` of a row, padding with nulls if the row is
shorter; this models assignment to a named pandas column. -/
def padSet (r : List Value) (i : Nat) (v : Value) : List Value :=
  (r ++ List.replicate (i + 1 - r.length) Value.null).set i v

/-- Whitespace characters stripped by Python `str.strip()`. -/
def isSpaceChar (c : Char) : Bool :=
  c.toNat = 32 || c.toNat = 9 || c.toNat = 10 || c.toNat = 13 ||
    c.toNat = 11 || c.toNat = 12

/-- Remove leading and trailing whitespace from a character list. -/
def trimChars (l : List Char) : List Char :=
  ((l.dropWhile isSpaceChar).reverse.dropWhile isSpaceChar).reverse

/-- Python `str.strip()`. -/
def pyStrip (s : String) : String :=
  String.mk (trimChars s.toList)

/-- `str.strip()` applied to text cells; other cells (in particular
nulls) are untouched, as in `Series.str.strip`. -/
def stripCell : Value → Value
  | Value.str s => Value.str (pyStrip s)
  | v => v

/-- Strip every text cell of a row. -/
def stripRow (r : List Value) : List Value :=
  r.map stripCell

/-- Keep the elements not yet seen, first occurrences surviving in
order; `seen` accumulates the values already emitted. -/
def dropDupAux (seen : List (List Value)) : List (List Value) → List (List Value)
  | [] => []
  | r :: rest =>
    if r ∈ seen then dropDupAux seen rest
    else r :: dropDupAux (r :: seen) rest

/-- `DataFrame.drop_duplicates`: keep the first occurrence of each row,
preserving order among survivors. -/
def dropDuplicates (l : List (List Value)) : List (List Value) :=
  dropDupAux [] l

/-- `basic_clean` of `src/main.py`: drop duplicate rows, then strip every
text cell (in the source, every object-dtype column). -/
def basic_clean (t : Table) : Table :=
  { header := t.header, rows := (dropDuplicates t.rows).map stripRow }

/-- Decimal digit characters, as matched by `strptime` field patterns. -/
def isDigitChar (c : Char) : Bool :=
  48 ≤ c.toNat && c.toNat ≤ 57

/-- Numeric value of a digit string (most significant digit first). -/
def natOfDigits (l : List Char) : Nat :=
  l.foldl (fun a c => a * 10 + (c.toNat - 48)) 0

/-- Gregorian leap year. -/
def isLeap (y : Nat) : Bool :=
  (y % 4 = 0 && y % 100 ≠ 0) || y % 400 = 0

/-- Days in month `m` of year `y`. -/
def daysInMonth (y m : Nat) : Nat :=
  if m = 2 then (if isLeap y then 29 else 28)
  else if m = 4 || m = 6 || m = 9 || m = 11 then 30
  else 31

/-- Two-digit-year pivot used by `strptime` `%y` (and hence by
`pd.to_datetime(..., format="%m/%d/%y")`): `00`–`68` map to the 2000s,
`69`–`99` to the 1900s. -/
def pivotYear (yy : Nat) : Nat :=
  if yy ≤ 68 then 2000 + yy else 1900 + yy

/-- Split a character list on a literal delimiter, Python `str.split`
semantics: the empty text yields one empty field, a leading, trailing or
doubled delimiter yields empty fields. -/
def splitOnChar (sep : Char) : List Char → List (List Char)
  | [] => [[]]
  | c :: cs =>
    match splitOnChar sep cs with
    | [] => [[c]]
    | t :: ts => if c = sep then [] :: t :: ts else (c :: t) :: ts

/-- The `%d` field of `strptime` (regex
`3[01]|[12]\d|0[1-9]|[1-9]| [1-9]`): one or two digits, or a space
followed by a nonzero digit.  Returns the day number (`0` from `"0"` or
`"00"` is rejected by the later `1 ≤ d` range check, as the regex
rejects those). -/
def parseDayField (dc : List Char) : Option Nat :=
  match dc with
  | [' ', c] =>
    if isDigitChar c && decide (c ≠ '0') then some (c.toNat - 48) else none
  | _ =>
    if dc.all isDigitChar && decide (1 ≤ dc.length) && decide (dc.length ≤ 2) then
      some (natOfDigits dc)
    else none

/-- Syntactic match of a date text against `%m/%d/%y` with the exact
`strptime` field patterns (used by `pd.to_datetime` via CPython
`TimeRE`): month `1[0-2]|0[1-9]|[1-9]` (one or two digits, `1..12`),
day one or two digits or space-padded (` [1-9]`), year exactly two
digits; the day must exist in the month of the pivot year.  Returns
`(month, day, two-digit year)` or `none`, mirroring `errors="coerce"`
in `prepare_types`. -/
def matchMDY (s : String) : Option (Nat × Nat × Nat) :=
  match splitOnChar '/' s.toList with
  | [mc, dc, yc] =>
    if mc.all isDigitChar && decide (1 ≤ mc.length) && decide (mc.length ≤ 2) &&
        yc.all isDigitChar && decide (yc.length = 2) then
      match parseDayField dc with
      | some d =>
        let m := natOfDigits mc
        let yy := natOfDigits yc
        if 1 ≤ m && m ≤ 12 && 1 ≤ d && d ≤ daysInMonth (pivotYear yy) m then
          some (m, d, yy)
        else none
      | none => none
    else none
  | _ => none

/-- Century fix of `prepare_types`: after `%y` parsing, a date strictly in
the future of the processing year is moved back 100 years
(`pd.DateOffset(years=100)` clamps Feb 29 to Feb 28 when the target year
is not leap). -/
def resolveMDY (currentYear : Nat) : Nat × Nat × Nat → Nat × Nat × Nat
  | (m, d, yy) =>
    let y0 := pivotYear yy
    if y0 > currentYear then
      let y1 := y0 - 100
      (y1, m, if m = 2 && d = 29 && !isLeap y1 then 28 else d)
    else (y0, m, d)

/-- `pd.to_datetime(v, format="%m/%d/%y", errors="coerce")` on one cell,
followed by the century fix: text matching the pattern becomes a date,
anything else becomes null. -/
def parseDateCell (currentYear : Nat) : Value → Value
  | Value.str s =>
    match matchMDY s with
    | some mdy =>
      match resolveMDY currentYear mdy with
      | (y, m, d) => Value.date y m d
    | none => Value.null
  | _ => Value.null

/-- `pd.to_numeric(s, errors="coerce")` on a text cell, restricted to
plain signed decimal literals (`-12`, `3.5`, `.5`, `7.`); other texts
coerce to null. -/
def parseRat (s : String) : Option Rat :=
  let l := s.toList
  let core := fun (cs : List Char) =>
    match cs.span (fun c => isDigitChar c) with
    | (intPart, rest) =>
      match rest with
      | [] => if intPart.isEmpty then none
              else some ((natOfDigits intPart : Rat))
      | c :: fracPart =>
        if c = '.' && fracPart.all isDigitChar &&
            !(intPart.isEmpty && fracPart.isEmpty) then
          some ((natOfDigits intPart : Rat) +
            (natOfDigits fracPart : Rat) / ((10 : Rat) ^ fracPart.length))
        else none
  match l with
  | '-' :: rest => (core rest).map (fun q => -q)
  | '+' :: rest => core rest
  | _ => core l

/-- `pd.to_numeric(col, errors="coerce")` on one cell: numbers pass
through, numeric text is parsed, everything else becomes null. -/
def toNumericCell : Value → Value
  | Value.num q => Value.num q
  | Value.str s =>
    match parseRat s with
    | some q => Value.num q
    | none => Value.null
  | _ => Value.null

/-- Pandas arithmetic `revenue - budget` on cells: defined when both
operands are numeric, null (`NaN`) otherwise. -/
def vSub : Value → Value → Value
  | Value.num a, Value.num b => Value.num (a - b)
  | _, _ => Value.null

/-- Rewrite the column named `c` through `f` (no-op when absent, as the
source guards every conversion with `if c in df.columns`). -/
def mapCol (t : Table) (c : String) (f : Value → Value) : Table :=
  match colIdx t.header c with
  | some i =>
    { header := t.header,
      rows := t.rows.map (fun r => padSet r i (f (getCell r i))) }
  | none => t

/-- Pandas column assignment `df[c] = f(row)`: overwrite the column if it
exists, otherwise append it at the end of the header. -/
def setColWith (t : Table) (c : String) (f : List Value → Value) : Table :=
  match colIdx t.header c with
  | some i =>
    { header := t.header, rows := t.rows.map (fun r => padSet r i (f r)) }
  | none =>
    { header := t.header ++ [c],
      rows := t.rows.map (fun r => padSet r t.header.length (f r)) }

/-- The fixed numeric-coercion column list of `prepare_types`. -/
def num_cols : List String :=
  ["popularity", "budget", "revenue", "runtime",
   "vote_count", "vote_average", "budget_adj", "revenue_adj",
   "release_year"]

/-- `prepare_types` of `src/main.py`: parse `release_date` (with the
century fix against the processing year `currentYear`), coerce the fixed
numeric columns, then derive `profit` from `revenue`/`budget`, falling
back to `revenue_adj`/`budget_adj`. -/
def prepare_types (currentYear : Nat) (t : Table) : Table :=
  let t1 := mapCol t "release_date" (parseDateCell currentYear)
  let t2 := num_cols.foldl (fun acc c => mapCol acc c toNumericCell) t1
  if (colIdx t2.header "revenue").isSome && (colIdx t2.header "budget").isSome then
    setColWith t2 "profit"
      (fun r => vSub (colCell t2 "revenue" r) (colCell t2 "budget" r))
  else if (colIdx t2.header "revenue_adj").isSome &&
      (colIdx t2.header "budget_adj").isSome then
    setColWith t2 "profit"
      (fun r => vSub (colCell t2 "revenue_adj" r) (colCell t2 "budget_adj" r))
  else t2

/-- Text rendering used by `astype("string")` before splitting; only text
cells occur in the multi-valued columns of this dataset. -/
def Value.asString : Value → Option String
  | Value.null => none
  | Value.str s => some s
  | Value.num q => some (toString q)
  | Value.date y m d => some (toString y ++ "-" ++ toString m ++ "-" ++ toString d)

/-- The trimmed `|`-fields of one cell, in split order. -/
def splitTokens (v : Value) : List String :=
  match v.asString with
  | some s => (splitOnChar '|' s.toList).map (fun l => String.mk (trimChars l))
  | none => []

/-- Core of `explode_pipe` once the source column position `i` is known:
drop null-source rows, split, explode one row per token, strip each
token, write it into column `newCol`, then drop rows whose new cell is
null. -/
def explodeAt (t : Table) (i : Nat) (newCol : String) : Table :=
  let inew := (colIdx t.header newCol).getD t.header.length
  let newHeader :=
    if (colIdx t.header newCol).isSome then t.header else t.header ++ [newCol]
  let kept := t.rows.filter (fun r => !(getCell r i).isNull)
  let exploded := kept.flatMap
    (fun r => (splitTokens (getCell r i)).map (fun tok => padSet r inew (Value.str tok)))
  { header := newHeader,
    rows := exploded.filter (fun r => !(getCell r inew).isNull) }

/-- `explode_pipe` of `src/main.py`: raises (`Except.error`) when the
source column is missing, otherwise explodes it into `newCol`. -/
def explode_pipe (t : Table) (col newCol : String) : Except String Table :=
  match colIdx t.header col with
  | none => Except.error ("Missing column " ++ col)
  | some i => Except.ok (explodeAt t i newCol)

/-- `df.dropna(subset=cols)`: raises `KeyError` when a listed column is
absent, otherwise keeps the rows whose listed cells are all non-null. -/
def dropnaSubset (t : Table) (cols : List String) : Except String Table :=
  if cols.all (fun c => (colIdx t.header c).isSome) then
    Except.ok
      { header := t.header,
        rows := t.rows.filter (fun r => cols.all (fun c => !(colCell t c r).isNull)) }
  else
    Except.error ("KeyError: " ++
      String.intercalate ", " (cols.filter (fun c => !(colIdx t.header c).isSome)))

/-- Sort key used by `sort_values("release_date")`: dates compare
chronologically; only date cells remain after the null filter. -/
def dateKeyNat : Value → Nat
  | Value.date y m d => y * 10000 + m * 100 + d
  | _ => 0

/-- Insert into a list kept in descending `key` order. -/
def insDesc (key : α → Nat) (a : α) : List α → List α
  | [] => [a]
  | x :: xs => if key x ≤ key a then a :: x :: xs else x :: insDesc key a xs

/-- Insertion sort, descending by `key`. -/
def sortDesc (key : α → Nat) (l : List α) : List α :=
  l.foldr (insDesc key) []

/-- `q1_sort_by_release_date_desc`: drop rows with null `release_date`
(raising when the column is absent), sort by date descending. -/
def q1_sort_by_release_date_desc (t : Table) : Except String Table :=
  match colIdx t.header "release_date" with
  | none => Except.error "KeyError: release_date"
  | some i =>
    Except.ok
      { header := t.header,
        rows := sortDesc (fun r => dateKeyNat (getCell r i))
          (t.rows.filter (fun r => !(getCell r i).isNull)) }

/-- The pandas comparison `revenue > 0` on one cell: true exactly for a
positive numeric cell. -/
def vPos : Value → Bool
  | Value.num q => decide (0 < q)
  | _ => false

/-- The rows surviving the shared Q3/Q4 filter: `dropna(subset=["revenue"])`
followed by `revenue > 0`. -/
def survivors (t : Table) : List (List Value) :=
  (t.rows.filter (fun r => !(colCell t "revenue" r).isNull)).filter
    (fun r => vPos (colCell t "revenue" r))

/-- The revenue of a surviving row, as a rational. -/
def revRat (t : Table) (r : List Value) : Rat :=
  match colCell t "revenue" r with
  | Value.num q => q
  | _ => 0

/-- First element maximising `f`, as `Series.idxmax` (ties keep the
earliest element). -/
def firstMaxBy (f : α → β) [LinearOrder β] : List α → Option α
  | [] => none
  | a :: as =>
    match firstMaxBy f as with
    | none => some a
    | some b => if f a < f b then some b else some a

/-- First element minimising `f`, as `Series.idxmin`. -/
def firstMinBy (f : α → β) [LinearOrder β] : List α → Option α
  | [] => none
  | a :: as =>
    match firstMinBy f as with
    | none => some a
    | some b => if f b < f a then some b else some a

/-- The optional output columns of Q3, restricted to those present. -/
def q3cols (t : Table) : List String :=
  ["original_title", "revenue", "budget", "release_year", "release_date"].filter
    (fun c => (colIdx t.header c).isSome)

/-- Projection of a row onto Q3's optional columns, prefixed by a tag. -/
def q3row (t : Table) (tag : String) (r : List Value) : List Value :=
  Value.str tag :: (q3cols t).map (fun c => colCell t c r)

/-- `q3_highest_lowest_revenue`: filter to positive revenue; if nothing
survives return the empty `{type, original_title, revenue}` table, else
the first-max and first-min rows tagged `highest_revenue` and
`lowest_revenue`. -/
def q3_highest_lowest_revenue (t : Table) : Except String Table :=
  match colIdx t.header "revenue" with
  | none => Except.error "KeyError: revenue"
  | some _ =>
    match firstMaxBy (revRat t) (survivors t), firstMinBy (revRat t) (survivors t) with
    | some rmax, some rmin =>
      Except.ok
        { header := "type" :: q3cols t,
          rows := [q3row t "highest_revenue" rmax, q3row t "lowest_revenue" rmin] }
    | _, _ =>
      Except.ok { header := ["type", "original_title", "revenue"], rows := [] }

/-- `q4_total_revenue`: sum of the surviving revenues, always a one-row
table. -/
def q4_total_revenue (t : Table) : Except String Table :=
  match colIdx t.header "revenue" with
  | none => Except.error "KeyError: revenue"
  | some _ =>
    Except.ok
      { header := ["total_revenue"],
        rows := [[Value.num (((survivors t).map (revRat t)).sum)]] }

/-- First occurrences of each value in encounter order (the distinct
values seen by `value_counts`), with `seen` accumulating. -/
def dedupValsAux (seen : List Value) : List Value → List Value
  | [] => []
  | v :: rest =>
    if v ∈ seen then dedupValsAux seen rest
    else v :: dedupValsAux (v :: seen) rest

/-- Distinct values of a list, first-encountered order. -/
def dedupFirstVals (l : List Value) : List Value :=
  dedupValsAux [] l

/-- Top entry of `value_counts`: the value with the greatest multiplicity
(ties resolved to the first-encountered value) with its count. -/
def topByCount (vs : List Value) : Option (Value × Nat) :=
  match firstMaxBy (fun v => vs.count v) (dedupFirstVals vs) with
  | some v => some (v, vs.count v)
  | none => none

/-- `q6_top_director_and_actor`: most frequent non-null director, and
most frequent exploded cast token; each part only when its column exists
and has data. -/
def q6_top_director_and_actor (t : Table) : Table :=
  let dirRows : List (List Value) :=
    match colIdx t.header "director" with
    | some i =>
      let dvals := (t.rows.map (fun r => getCell r i)).filter (fun v => !v.isNull)
      match topByCount dvals with
      | some (v, c) => [[Value.str "director", v, Value.num (c : Rat)]]
      | none => []
    | none => []
  let actRows : List (List Value) :=
    match colIdx t.header "cast" with
    | some i =>
      let ctmp := t.rows.filter (fun r => !(getCell r i).isNull)
      if ctmp.isEmpty then []
      else
        let e := explodeAt { header := t.header, rows := ctmp } i "actor"
        let ai := (colIdx e.header "actor").getD 0
        match topByCount (e.rows.map (fun r => getCell r ai)) with
        | some (v, c) => [[Value.str "actor", v, Value.num (c : Rat)]]
        | none => []
    | none => []
  { header := ["role", "name", "movie_count"], rows := dirRows ++ actRows }

/-- `q7_count_movies_by_genre`: drop null genres (raising when the column
is absent), explode, group by genre counting rows, sort by count
descending. -/
def q7_count_movies_by_genre (t : Table) : Except String Table :=
  match colIdx t.header "genres" with
  | none => Except.error "KeyError: genres"
  | some i =>
    let t1 : Table :=
      { header := t.header, rows := t.rows.filter (fun r => !(getCell r i).isNull) }
    match explode_pipe t1 "genres" "genre" with
    | Except.error e => Except.error e
    | Except.ok g =>
      let gi := (colIdx g.header "genre").getD 0
      let toks := g.rows.map (fun r => getCell r gi)
      let pairs := (dedupFirstVals toks).map (fun v => (v, toks.count v))
      Except.ok
        { header := ["genre", "movie_count"],
          rows := (sortDesc (fun p => p.2) pairs).map
            (fun p => [p.1, Value.num (p.2 : Rat)]) }

/-- A cell carries no leading or trailing whitespace: text cells are
fixed points of `str.strip()`, non-text cells vacuously. -/
def trimFixedB : Value → Bool
  | Value.str s => pyStrip s == s
  | _ => true

/-- Revenue cells of realistic (post-load) tables: numeric or null. -/
def isNumOrNull : Value → Bool
  | Value.null => true
  | Value.num _ => true
  | _ => false

/-! ### Lemmas about stripping -/

lemma dropWhile_reverse_of_lefttrimmed (p : Char → Bool) :
    ∀ x : List Char, List.dropWhile p x.reverse = x.reverse →
      List.dropWhile p (List.dropWhile p x).reverse = (List.dropWhile p x).reverse := by
  intro x hx
  induction x with
  | nil => simp
  | cons c cs ih =>
    by_cases hc : p c
    · rw [List.dropWhile_cons_of_pos hc]
      apply ih
      rcases hcs : cs.reverse with _ | ⟨d, ds⟩
      · simp
      · have hrev : (c :: cs).reverse = d :: (ds ++ [c]) := by
          simp [hcs]
        rw [hrev] at hx
        have hd : ¬ p d := by
          intro hpd
          rw [List.dropWhile_cons_of_pos hpd] at hx
          have hlen := congrArg List.length hx
          have hle : (List.dropWhile p (ds ++ [c])).length ≤ (ds ++ [c]).length :=
            (List.dropWhile_sublist p).length_le
          simp at hlen hle
          omega
        rw [List.dropWhile_cons_of_neg hd]
    · rw [List.dropWhile_cons_of_neg hc]
      exact hx

lemma trimChars_idem (l : List Char) : trimChars (trimChars l) = trimChars l := by
  have h1 : List.dropWhile isSpaceChar (trimChars l).reverse = (trimChars l).reverse := by
    simp only [trimChars, List.reverse_reverse, List.dropWhile_idempotent]
  have h2 : List.dropWhile isSpaceChar (trimChars l) = trimChars l := by
    have hx : List.dropWhile isSpaceChar ((l.dropWhile isSpaceChar).reverse).reverse =
        ((l.dropWhile isSpaceChar).reverse).reverse := by
      rw [List.reverse_reverse, List.dropWhile_idempotent]
    exact dropWhile_reverse_of_lefttrimmed isSpaceChar
      (l.dropWhile isSpaceChar).reverse hx
  show ((List.dropWhile isSpaceChar (trimChars l)).reverse.dropWhile
      isSpaceChar).reverse = trimChars l
  rw [h2, h1, List.reverse_reverse]

lemma pyStrip_idem (s : String) : pyStrip (pyStrip s) = pyStrip s := by
  show String.mk (trimChars (trimChars s.toList)) = String.mk (trimChars s.toList)
  rw [trimChars_idem]

lemma stripCell_idem (v : Value) : stripCell (stripCell v) = stripCell v := by
  cases v <;> simp [stripCell, pyStrip_idem]

lemma stripRow_idem (r : List Value) : stripRow (stripRow r) = stripRow r := by
  simp only [stripRow, List.map_map]
  exact List.map_congr_left (fun v _ => stripCell_idem v)

/-! ### Lemmas about duplicate removal -/

lemma mem_dropDupAux {x : List Value} :
    ∀ {l : List (List Value)} {seen : List (List Value)},
      x ∈ dropDupAux seen l → x ∈ l := by
  intro l
  induction l with
  | nil => intro seen h; simp [dropDupAux] at h
  | cons r rest ih =>
    intro seen h
    rw [dropDupAux] at h
    split at h
    · exact List.mem_cons_of_mem _ (ih h)
    · rcases List.mem_cons.mp h with h | h
      · simp [h]
      · exact List.mem_cons_of_mem _ (ih h)

lemma mem_dropDuplicates {x : List Value} {l : List (List Value)}
    (h : x ∈ dropDuplicates l) : x ∈ l :=
  mem_dropDupAux h

lemma not_mem_seen_of_mem_dropDupAux {x : List Value} :
    ∀ {l seen : List (List Value)}, x ∈ dropDupAux seen l → x ∉ seen := by
  intro l
  induction l with
  | nil => intro seen h; simp [dropDupAux] at h
  | cons r rest ih =>
    intro seen h
    rw [dropDupAux] at h
    split at h
    · exact ih h
    · rcases List.mem_cons.mp h with h | h
      · subst h; assumption
      · intro hseen
        exact ih h (List.mem_cons_of_mem _ hseen)

lemma nodup_dropDupAux :
    ∀ (l seen : List (List Value)), (dropDupAux seen l).Nodup := by
  intro l
  induction l with
  | nil => intro seen; simp [dropDupAux]
  | cons r rest ih =>
    intro seen
    rw [dropDupAux]
    split
    · exact ih seen
    · refine List.nodup_cons.mpr ⟨fun hmem => ?_, ih (r :: seen)⟩
      exact not_mem_seen_of_mem_dropDupAux hmem (List.mem_cons_self r seen)

lemma nodup_dropDuplicates (l : List (List Value)) : (dropDuplicates l).Nodup :=
  nodup_dropDupAux l []

lemma stripRow_fixed_of_mem_map {R : List (List Value)} {x : List Value}
    (hx : x ∈ R.map stripRow) : stripRow x = x := by
  obtain ⟨y, _, rfl⟩ := List.mem_map.mp hx
  exact stripRow_idem y

/-! ### Claim C4: idempotence of the Cleaner -/

/-- C4 (counterexample): the Cleaner is not idempotent.  On a table whose
rows `"x"` and `"x "` only differ in trailing whitespace, duplicate
removal (which runs before stripping) keeps both rows, stripping makes
them equal, and a second `basic_clean` removes one of them. -/
theorem c4_counterexample :
    basic_clean (basic_clean
        { header := ["original_title"],
          rows := [[Value.str "x"], [Value.str "x "]] }) ≠
      basic_clean
        { header := ["original_title"],
          rows := [[Value.str "x"], [Value.str "x "]] } := by
  decide

/-- C4 (amended): the Cleaner is idempotent only up to a second duplicate
removal: applying `basic_clean` twice equals deduplicating the rows of a
single application (stripping after deduplication can merge rows, so the
second pass can still drop rows, but it never changes any cell). -/
theorem c4_theorem (t : Table) :
    basic_clean (basic_clean t) =
      { header := (basic_clean t).header,
        rows := dropDuplicates (basic_clean t).rows } := by
  unfold basic_clean
  simp only
  congr 1
  have hfix : ∀ x ∈ dropDuplicates ((dropDuplicates t.rows).map stripRow),
      stripRow x = x :=
    fun x hx => stripRow_fixed_of_mem_map (mem_dropDuplicates hx)
  calc (dropDuplicates ((dropDuplicates t.rows).map stripRow)).map stripRow
      = (dropDuplicates ((dropDuplicates t.rows).map stripRow)).map id :=
        List.map_congr_left hfix
    _ = dropDuplicates ((dropDuplicates t.rows).map stripRow) := List.map_id _

/-! ### Claim C5: invariants after Cleaner and TypeNormalizer -/

lemma mem_padSet {v : Value} {r : List Value} {i : Nat} {w : Value}
    (h : v ∈ padSet r i w) : v ∈ r ∨ v = Value.null ∨ v = w := by
  unfold padSet at h
  rcases List.mem_or_eq_of_mem_set h with h | h
  · rcases List.mem_append.mp h with h | h
    · exact Or.inl h
    · exact Or.inr (Or.inl (List.mem_replicate.mp h).2)
  · exact Or.inr (Or.inr h)

lemma trimFixedB_stripCell (v : Value) : trimFixedB (stripCell v) = true := by
  cases v <;> simp [stripCell, trimFixedB, pyStrip_idem]

/-- Rows of a cleaned table carry only whitespace-free cells. -/
lemma trimmed_basic_clean (t : Table) :
    ∀ r ∈ (basic_clean t).rows, ∀ v ∈ r, trimFixedB v = true := by
  intro r hr v hv
  obtain ⟨y, _, rfl⟩ := List.mem_map.mp hr
  obtain ⟨w, _, rfl⟩ := List.mem_map.mp hv
  exact trimFixedB_stripCell w

lemma trimmed_mapCol (t : Table) (c : String) (f : Value → Value)
    (hf : ∀ v, trimFixedB (f v) = true)
    (ht : ∀ r ∈ t.rows, ∀ v ∈ r, trimFixedB v = true) :
    ∀ r ∈ (mapCol t c f).rows, ∀ v ∈ r, trimFixedB v = true := by
  unfold mapCol
  split
  · intro r hr v hv
    obtain ⟨r0, hr0, rfl⟩ := List.mem_map.mp hr
    rcases mem_padSet hv with h | h | h
    · exact ht r0 hr0 v h
    · subst h; rfl
    · subst h; exact hf _
  · exact ht

lemma trimmed_setColWith (t : Table) (c : String) (f : List Value → Value)
    (hf : ∀ r, trimFixedB (f r) = true)
    (ht : ∀ r ∈ t.rows, ∀ v ∈ r, trimFixedB v = true) :
    ∀ r ∈ (setColWith t c f).rows, ∀ v ∈ r, trimFixedB v = true := by
  unfold setColWith
  split <;>
  · intro r hr v hv
    obtain ⟨r0, hr0, rfl⟩ := List.mem_map.mp hr
    rcases mem_padSet hv with h | h | h
    · exact ht r0 hr0 v h
    · subst h; rfl
    · subst h; exact hf _

lemma trimFixedB_toNumericCell (v : Value) : trimFixedB (toNumericCell v) = true := by
  cases v with
  | str s => rcases h : parseRat s with _ | q <;> simp [toNumericCell, h, trimFixedB]
  | null => rfl
  | num q => rfl
  | date y m d => rfl

lemma trimFixedB_parseDateCell (cy : Nat) (v : Value) :
    trimFixedB (parseDateCell cy v) = true := by
  cases v with
  | str s =>
    rcases h : matchMDY s with _ | mdy
    · simp [parseDateCell, h, trimFixedB]
    · simp only [parseDateCell, h]
      rcases resolveMDY cy mdy with ⟨y, m, d⟩
      rfl
  | null => rfl
  | num q => rfl
  | date y m d => rfl

lemma trimFixedB_vSub (v w : Value) : trimFixedB (vSub v w) = true := by
  cases v <;> cases w <;> rfl

lemma trimmed_foldl_numeric :
    ∀ (cs : List String) (t : Table),
      (∀ r ∈ t.rows, ∀ v ∈ r, trimFixedB v = true) →
      ∀ r ∈ (cs.foldl (fun acc c => mapCol acc c toNumericCell) t).rows,
        ∀ v ∈ r, trimFixedB v = true := by
  intro cs
  induction cs with
  | nil => intro t ht; exact ht
  | cons c cs ih =>
    intro t ht
    exact ih _ (trimmed_mapCol t c toNumericCell trimFixedB_toNumericCell ht)

/-- C5 (counterexample): after Cleaner and TypeNormalizer two rows can be
exact duplicates, because stripping (and numeric coercion) run after
duplicate removal and can merge previously distinct rows. -/
theorem c5_counterexample :
    ¬ (prepare_types 2026 (basic_clean
        { header := ["original_title"],
          rows := [[Value.str "x"], [Value.str "x "]] })).rows.Nodup := by
  decide

/-- C5 (amended): after Cleaner and TypeNormalizer no text cell carries
leading or trailing whitespace; row dedup holds at the duplicate-removal
step itself, but trimming or type coercion can reintroduce duplicate
rows afterwards. -/
theorem c5_theorem (t : Table) (cy : Nat) :
    (∀ r ∈ (prepare_types cy (basic_clean t)).rows, ∀ v ∈ r,
        trimFixedB v = true) ∧
      (dropDuplicates t.rows).Nodup := by
  constructor
  · unfold prepare_types
    have h1 := trimmed_mapCol (basic_clean t) "release_date" (parseDateCell cy)
      (trimFixedB_parseDateCell cy) (trimmed_basic_clean t)
    have h2 := trimmed_foldl_numeric num_cols _ h1
    dsimp only
    split
    · exact trimmed_setColWith _ _ _ (fun r => trimFixedB_vSub _ _) h2
    · split
      · exact trimmed_setColWith _ _ _ (fun r => trimFixedB_vSub _ _) h2
      · exact h2
  · exact nodup_dropDuplicates t.rows

/-- C5 (witness): on a concrete table the normalized cell `" a "` comes
out stripped, and the dedup step yields duplicate-free rows. -/
theorem c5_witness :
    trimFixedB (Value.str "a") = true ∧
      (dropDuplicates [[Value.str " a ", Value.str "1"]]).Nodup := by
  have h := c5_theorem
    { header := ["original_title", "revenue"],
      rows := [[Value.str " a ", Value.str "1"]] } 2026
  exact ⟨h.1 [Value.str "a", Value.num 1] (by decide) (Value.str "a") (by decide),
    h.2⟩

/-! ### Claim C2: century disambiguation of two-digit years -/

lemma toNat_bounds_of_isDigitChar {c : Char} (h : isDigitChar c = true) :
    48 ≤ c.toNat ∧ c.toNat ≤ 57 := by
  simp only [isDigitChar, Bool.and_eq_true, decide_eq_true_eq] at h
  exact h

lemma natOfDigits_le_99 {l : List Char} (hd : l.all isDigitChar = true)
    (hl : l.length ≤ 2) : natOfDigits l ≤ 99 := by
  rcases l with _ | ⟨a, l⟩
  · simp [natOfDigits]
  rcases l with _ | ⟨b, l⟩
  · simp only [List.all_cons, Bool.and_eq_true] at hd
    have := toNat_bounds_of_isDigitChar hd.1
    simp only [natOfDigits, List.foldl]
    omega
  rcases l with _ | ⟨c, l⟩
  · simp only [List.all_cons, Bool.and_eq_true] at hd
    have ha := toNat_bounds_of_isDigitChar hd.1
    have hb := toNat_bounds_of_isDigitChar hd.2.1
    simp only [natOfDigits, List.foldl]
    omega
  · simp at hl

/-- Any two-digit year produced by a successful `%m/%d/%y` match is at
most 99. -/
lemma matchMDY_year_le {s : String} {m d yy : Nat}
    (h : matchMDY s = some (m, d, yy)) : yy ≤ 99 := by
  unfold matchMDY at h
  split at h
  · split at h
    · rename_i hcond
      split at h
      · dsimp only at h
        split at h
        · simp only [Option.some.injEq, Prod.mk.injEq] at h
          obtain ⟨-, -, hyy⟩ := h
          subst hyy
          simp only [Bool.and_eq_true, decide_eq_true_eq] at hcond
          exact natOfDigits_le_99 hcond.1.2 (le_of_eq hcond.2)
        · simp at h
      · simp at h
    · simp at h
  · simp at h

lemma resolveMDY_fst (cy m d yy : Nat) :
    (resolveMDY cy (m, d, yy)).1 =
      if pivotYear yy > cy then pivotYear yy - 100 else pivotYear yy := by
  unfold resolveMDY
  dsimp only
  split <;> rfl

lemma resolveMDY_snd_fst (cy m d yy : Nat) :
    (resolveMDY cy (m, d, yy)).2.1 = m := by
  unfold resolveMDY
  dsimp only
  split <;> rfl

/-- C2: for any processing year of the current era (2000–2068, which
contains the actual run date), a text matching `MM/DD/YY` normalizes to
a date whose year is `19YY` exactly when the naive `20YY` reading lies
strictly beyond the processing year, and `20YY` otherwise (in
particular a year equal to the processing year is not shifted); a text
failing the pattern becomes null. -/
theorem c2_theorem (cy : Nat) (s : String) (m d yy : Nat)
    (hcy1 : 2000 ≤ cy) (hcy2 : cy ≤ 2068) :
    (matchMDY s = some (m, d, yy) →
      ∃ d2, parseDateCell cy (Value.str s) =
        Value.date (if cy < 2000 + yy then 1900 + yy else 2000 + yy) m d2) ∧
      (matchMDY s = none → parseDateCell cy (Value.str s) = Value.null) := by
  constructor
  · intro h
    have hyy : yy ≤ 99 := matchMDY_year_le h
    refine ⟨(resolveMDY cy (m, d, yy)).2.2, ?_⟩
    have hped : parseDateCell cy (Value.str s) =
        Value.date (resolveMDY cy (m, d, yy)).1 (resolveMDY cy (m, d, yy)).2.1
          (resolveMDY cy (m, d, yy)).2.2 := by
      simp only [parseDateCell, h]
    rw [hped, resolveMDY_fst, resolveMDY_snd_fst]
    have hy : (if pivotYear yy > cy then pivotYear yy - 100 else pivotYear yy) =
        (if cy < 2000 + yy then 1900 + yy else 2000 + yy) := by
      unfold pivotYear
      split_ifs <;> omega
    rw [hy]
  · intro h
    simp [parseDateCell, h]

/-- C2 (witness): with processing year 2026, `"12/15/74"` (naive 2074,
in the future) normalizes to year 1974, as does the space-padded day
text `"3/ 1/74"` which `%d` accepts; the non-matching texts `"hello"`
and `"1/2/5"` (one-digit year, rejected by the two-digit `%y` field)
become null. -/
theorem c2_witness :
    (∃ d2, parseDateCell 2026 (Value.str "12/15/74") = Value.date 1974 12 d2) ∧
      (∃ d2, parseDateCell 2026 (Value.str "3/ 1/74") = Value.date 1974 3 d2) ∧
      parseDateCell 2026 (Value.str "hello") = Value.null ∧
      parseDateCell 2026 (Value.str "1/2/5") = Value.null := by
  refine ⟨?_, ?_, ?_, ?_⟩
  · have h := (c2_theorem 2026 "12/15/74" 12 15 74 (by norm_num) (by norm_num)).1
      (by decide)
    simpa using h
  · have h := (c2_theorem 2026 "3/ 1/74" 3 1 74 (by norm_num) (by norm_num)).1
      (by decide)
    simpa using h
  · exact (c2_theorem 2026 "hello" 0 0 0 (by norm_num) (by norm_num)).2 (by decide)
  · exact (c2_theorem 2026 "1/2/5" 0 0 0 (by norm_num) (by norm_num)).2 (by decide)

/-! ### Claims C3 and C1: Exploder output and missing-column behaviour -/

lemma getCell_padSet_self (r : List Value) (i : Nat) (v : Value) :
    getCell (padSet r i v) i = v := by
  unfold getCell padSet
  have hlen : i < (r ++ List.replicate (i + 1 - r.length) Value.null).length := by
    simp only [List.length_append, List.length_replicate]
    omega
  simp [List.getD_eq_getElem?_getD, List.getElem?_set_self hlen]

lemma getCell_padSet_ne (r : List Value) {i j : Nat} (v : Value) (hne : j ≠ i) :
    getCell (padSet r i v) j = getCell r j := by
  unfold getCell padSet
  rw [List.getD_eq_getElem?_getD, List.getD_eq_getElem?_getD,
    List.getElem?_set_ne (fun hh => hne hh.symm)]
  by_cases hj : j < r.length
  · rw [List.getElem?_append_left hj]
  · rw [List.getElem?_append_right (Nat.le_of_not_lt hj),
      List.getElem?_eq_none (Nat.le_of_not_lt hj), List.getElem?_replicate]
    split <;> rfl

/-- C3 (counterexample): an empty trimmed substring is not dropped by
the Exploder: the source value `"Drama|"` produces a second output row
whose `genre` entry is the empty string. -/
theorem c3_counterexample :
    explode_pipe { header := ["genres"], rows := [[Value.str "Drama|"]] }
        "genres" "genre" =
      Except.ok
        { header := ["genres", "genre"],
          rows := [[Value.str "Drama|", Value.str "Drama"],
                   [Value.str "Drama|", Value.str ""]] } := by
  decide

/-- C3 (amended): for a present source column (and fresh target column)
the Exploder emits one output row per pipe-delimited substring of each
non-null source value, trimmed, in input-row order then split order with
duplicates preserved, replicating the other columns; only null-source
rows are dropped — output rows whose trimmed substring is empty are
retained. -/
theorem c3_theorem (t : Table) (col newCol : String) (i : Nat)
    (hcol : colIdx t.header col = some i)
    (hnew : colIdx t.header newCol = none) :
    explode_pipe t col newCol =
      Except.ok
        { header := t.header ++ [newCol],
          rows := (t.rows.filter (fun r => !(getCell r i).isNull)).flatMap
            (fun r => (splitTokens (getCell r i)).map
              (fun tok => padSet r t.header.length (Value.str tok))) } := by
  unfold explode_pipe
  rw [hcol]
  unfold explodeAt
  rw [hnew]
  simp only [Option.getD_none, Option.isSome_none, Bool.false_eq_true, if_false]
  congr 1
  congr 1
  apply List.filter_eq_self.mpr
  intro x hx
  obtain ⟨r, hr, hx⟩ := List.mem_flatMap.mp hx
  obtain ⟨tok, htok, rfl⟩ := List.mem_map.mp hx
  rw [getCell_padSet_self]
  rfl

/-- C3 (witness): on a concrete two-row table the theorem yields the
exploded rows `"A"`, `"B"` of `" A |B"` (null source row dropped). -/
theorem c3_witness :
    explode_pipe { header := ["genres"], rows := [[Value.str " A |B"], [Value.null]] }
        "genres" "genre" =
      Except.ok
        { header := ["genres", "genre"],
          rows := [[Value.str " A |B", Value.str "A"],
                   [Value.str " A |B", Value.str "B"]] } := by
  have h := c3_theorem
    { header := ["genres"], rows := [[Value.str " A |B"], [Value.null]] }
    "genres" "genre" 0 (by decide) (by decide)
  rw [h]
  decide

/-- C1 (counterexample): on a table lacking `release_date`, Q1 raises a
`KeyError` instead of returning a result table. -/
theorem c1_counterexample :
    q1_sort_by_release_date_desc
        { header := ["original_title"], rows := [[Value.str "A"]] } =
      Except.error "KeyError: release_date" := by
  decide

/-- C1 (amended): a query whose load-bearing filter column is absent
does not operate on surviving rows — it fails: Q1 without
`release_date`, Q4 without `revenue` and Q7 without `genres` each raise
a `KeyError` from `dropna(subset=...)`. -/
theorem c1_theorem (t : Table) :
    (colIdx t.header "release_date" = none →
      q1_sort_by_release_date_desc t = Except.error "KeyError: release_date") ∧
      (colIdx t.header "revenue" = none →
        q4_total_revenue t = Except.error "KeyError: revenue") ∧
      (colIdx t.header "genres" = none →
        q7_count_movies_by_genre t = Except.error "KeyError: genres") := by
  refine ⟨fun h => ?_, fun h => ?_, fun h => ?_⟩
  · unfold q1_sort_by_release_date_desc
    rw [h]
  · unfold q4_total_revenue
    rw [h]
  · unfold q7_count_movies_by_genre
    rw [h]

/-- C1 (witness): a concrete table having none of the three filter
columns makes all three queries fail. -/
theorem c1_witness :
    q1_sort_by_release_date_desc
        { header := ["original_title"], rows := [[Value.str "B"]] } =
        Except.error "KeyError: release_date" ∧
      q4_total_revenue { header := ["original_title"], rows := [[Value.str "B"]] } =
        Except.error "KeyError: revenue" ∧
      q7_count_movies_by_genre
          { header := ["original_title"], rows := [[Value.str "B"]] } =
        Except.error "KeyError: genres" := by
  have h := c1_theorem { header := ["original_title"], rows := [[Value.str "B"]] }
  exact ⟨h.1 (by decide), h.2.1 (by decide), h.2.2 (by decide)⟩

/-! ### Claim C6: derivation of the profit column -/

lemma colIdx_lt_length {l : List String} {c : String} {i : Nat}
    (h : colIdx l c = some i) : i < l.length := by
  induction l generalizing i with
  | nil => simp [colIdx] at h
  | cons a l ih =>
    rw [colIdx] at h
    split at h
    · cases h
      simp
    · rcases Option.map_eq_some'.mp h with ⟨j, hj, rfl⟩
      simpa using ih hj

lemma colIdx_getElem? {l : List String} {c : String} {i : Nat}
    (h : colIdx l c = some i) : l[i]? = some c := by
  induction l generalizing i with
  | nil => simp [colIdx] at h
  | cons a l ih =>
    rw [colIdx] at h
    split at h
    · cases h
      simpa using (by assumption : a = c)
    · rcases Option.map_eq_some'.mp h with ⟨j, hj, rfl⟩
      simpa using ih hj

lemma colIdx_append_left {l l' : List String} {c : String} {i : Nat}
    (h : colIdx l c = some i) : colIdx (l ++ l') c = some i := by
  induction l generalizing i with
  | nil => simp [colIdx] at h
  | cons a l ih =>
    rw [colIdx] at h
    rw [List.cons_append, colIdx]
    split at h
    · cases h
      simp_all
    · rcases Option.map_eq_some'.mp h with ⟨j, hj, rfl⟩
      simp_all [ih hj]

lemma colIdx_append_self {l : List String} {c : String}
    (h : colIdx l c = none) : colIdx (l ++ [c]) c = some l.length := by
  induction l with
  | nil => simp [colIdx]
  | cons a l ih =>
    rw [colIdx] at h
    rw [List.cons_append, colIdx]
    split at h
    · cases h
    · split
      · simp_all
      · rcases Option.map_eq_none'.mp h with h0
        simp [ih h0]

lemma colIdx_append_none {l : List String} {c d : String}
    (h : colIdx l d = none) (hne : d ≠ c) : colIdx (l ++ [c]) d = none := by
  induction l with
  | nil =>
    rw [List.nil_append, colIdx, if_neg (fun hh => hne hh.symm)]
    rfl
  | cons a l ih =>
    rw [colIdx] at h
    rw [List.cons_append, colIdx]
    split at h
    · cases h
    · split
      · simp_all
      · rcases Option.map_eq_none'.mp h with h0
        simp [ih h0]

lemma mapCol_header (t : Table) (c : String) (f : Value → Value) :
    (mapCol t c f).header = t.header := by
  unfold mapCol
  split <;> rfl

lemma foldl_mapCol_header (g : Value → Value) :
    ∀ (cs : List String) (t : Table),
      (cs.foldl (fun acc c => mapCol acc c g) t).header = t.header := by
  intro cs
  induction cs with
  | nil => intro t; rfl
  | cons c cs ih => intro t; rw [List.foldl_cons, ih, mapCol_header]

/-- The position at which `setColWith t c f` writes its values. -/
def writeIdx (t : Table) (c : String) : Nat :=
  (colIdx t.header c).getD t.header.length

lemma setColWith_rows (t : Table) (c : String) (f : List Value → Value) :
    (setColWith t c f).rows = t.rows.map (fun r => padSet r (writeIdx t c) (f r)) := by
  unfold setColWith writeIdx
  split <;> simp_all

lemma colIdx_setColWith_self (t : Table) (c : String) (f : List Value → Value) :
    colIdx (setColWith t c f).header c = some (writeIdx t c) := by
  unfold setColWith writeIdx
  split
  · simp_all
  · rename_i h
    simp [colIdx_append_self h, h]

lemma colIdx_setColWith_other (t : Table) (c : String) (f : List Value → Value)
    {d : String} {j : Nat} (hd : colIdx t.header d = some j) :
    colIdx (setColWith t c f).header d = some j := by
  unfold setColWith
  split
  · exact hd
  · exact colIdx_append_left hd

lemma writeIdx_ne_other (t : Table) (c d : String) {j : Nat}
    (hd : colIdx t.header d = some j) (hne : d ≠ c) : j ≠ writeIdx t c := by
  unfold writeIdx
  rcases h : colIdx t.header c with _ | i
  · simp only [Option.getD_none]
    exact Nat.ne_of_lt (colIdx_lt_length hd)
  · simp only [Option.getD_some]
    intro hji
    subst hji
    have h1 := colIdx_getElem? hd
    have h2 := colIdx_getElem? h
    rw [h1] at h2
    exact hne (Option.some.inj h2)

lemma colCell_setColWith_self (t : Table) (c : String) (f : List Value → Value)
    (r0 : List Value) :
    colCell (setColWith t c f) c (padSet r0 (writeIdx t c) (f r0)) = f r0 := by
  unfold colCell
  rw [colIdx_setColWith_self]
  exact getCell_padSet_self r0 (writeIdx t c) (f r0)

lemma colCell_setColWith_other (t : Table) (c : String) (f : List Value → Value)
    (d : String) (hne : d ≠ c) (r0 : List Value) :
    colCell (setColWith t c f) d (padSet r0 (writeIdx t c) (f r0)) =
      colCell t d r0 := by
  unfold colCell
  rcases hd : colIdx t.header d with _ | j
  · have : colIdx (setColWith t c f).header d = none := by
      unfold setColWith
      split
      · exact hd
      · exact colIdx_append_none hd hne
    rw [this]
  · rw [colIdx_setColWith_other t c f hd]
    exact getCell_padSet_ne r0 (f r0) (writeIdx_ne_other t c d hd hne)

/-- C6: profit derivation.  If both `revenue` and `budget` exist, the
normalized table has a `profit` column whose cells are the pandas
difference `revenue − budget` (null if either operand is null);
otherwise if both adjusted columns exist, the adjusted difference is
used; otherwise no `profit` column is created (it exists afterwards only
if the input already had one). -/
theorem c6_theorem (t : Table) (cy : Nat) :
    ((colIdx t.header "revenue").isSome = true →
      (colIdx t.header "budget").isSome = true →
        (colIdx (prepare_types cy t).header "profit").isSome = true ∧
          ∀ r ∈ (prepare_types cy t).rows,
            colCell (prepare_types cy t) "profit" r =
              vSub (colCell (prepare_types cy t) "revenue" r)
                (colCell (prepare_types cy t) "budget" r)) ∧
      (¬ ((colIdx t.header "revenue").isSome = true ∧
          (colIdx t.header "budget").isSome = true) →
        (colIdx t.header "revenue_adj").isSome = true →
        (colIdx t.header "budget_adj").isSome = true →
          (colIdx (prepare_types cy t).header "profit").isSome = true ∧
            ∀ r ∈ (prepare_types cy t).rows,
              colCell (prepare_types cy t) "profit" r =
                vSub (colCell (prepare_types cy t) "revenue_adj" r)
                  (colCell (prepare_types cy t) "budget_adj" r)) ∧
        (¬ ((colIdx t.header "revenue").isSome = true ∧
            (colIdx t.header "budget").isSome = true) →
          ¬ ((colIdx t.header "revenue_adj").isSome = true ∧
              (colIdx t.header "budget_adj").isSome = true) →
            (colIdx (prepare_types cy t).header "profit").isSome =
              (colIdx t.header "profit").isSome) := by
  have ht2 : (num_cols.foldl (fun acc c => mapCol acc c toNumericCell)
      (mapCol t "release_date" (parseDateCell cy))).header = t.header := by
    rw [foldl_mapCol_header, mapCol_header]
  refine ⟨fun hrev hbud => ?_, fun hnrb hradj hbadj => ?_, fun hnrb hnadj => ?_⟩
  · unfold prepare_types
    dsimp only
    rw [if_pos (by rw [ht2]; simp [hrev, hbud])]
    constructor
    · rw [colIdx_setColWith_self]
      rfl
    · intro r hr
      rw [setColWith_rows] at hr
      obtain ⟨r0, hr0, rfl⟩ := List.mem_map.mp hr
      rw [colCell_setColWith_self,
        colCell_setColWith_other _ _ _ "revenue" (by decide),
        colCell_setColWith_other _ _ _ "budget" (by decide)]
  · unfold prepare_types
    dsimp only
    rw [if_neg (by rw [ht2]; intro hc; simp only [Bool.and_eq_true] at hc; exact hnrb hc),
      if_pos (by rw [ht2]; simp [hradj, hbadj])]
    constructor
    · rw [colIdx_setColWith_self]
      rfl
    · intro r hr
      rw [setColWith_rows] at hr
      obtain ⟨r0, hr0, rfl⟩ := List.mem_map.mp hr
      rw [colCell_setColWith_self,
        colCell_setColWith_other _ _ _ "revenue_adj" (by decide),
        colCell_setColWith_other _ _ _ "budget_adj" (by decide)]
  · unfold prepare_types
    dsimp only
    rw [if_neg (by rw [ht2]; intro hc; simp only [Bool.and_eq_true] at hc; exact hnrb hc),
      if_neg (by rw [ht2]; intro hc; simp only [Bool.and_eq_true] at hc; exact hnadj hc)]
    rw [ht2]

/-- C6 (witness): on a concrete `revenue=100, budget=40` table the
normalized table has a `profit` column and its (unique) row satisfies
`profit = revenue − budget`; likewise for a table carrying only the
adjusted pair `revenue_adj=80, budget_adj=20`. -/
theorem c6_witness :
    ((colIdx (prepare_types 2026
        { header := ["revenue", "budget"],
          rows := [[Value.str "100", Value.str "40"]] }).header "profit").isSome = true ∧
      ∃ r ∈ (prepare_types 2026
          { header := ["revenue", "budget"],
            rows := [[Value.str "100", Value.str "40"]] }).rows,
        colCell (prepare_types 2026
            { header := ["revenue", "budget"],
              rows := [[Value.str "100", Value.str "40"]] }) "profit" r =
          vSub (Value.num 100) (Value.num 40)) ∧
      ∃ r ∈ (prepare_types 2026
          { header := ["revenue_adj", "budget_adj"],
            rows := [[Value.str "80", Value.str "20"]] }).rows,
        colCell (prepare_types 2026
            { header := ["revenue_adj", "budget_adj"],
              rows := [[Value.str "80", Value.str "20"]] }) "profit" r =
          vSub (Value.num 80) (Value.num 20) := by
  constructor
  · have h := (c6_theorem
      { header := ["revenue", "budget"], rows := [[Value.str "100", Value.str "40"]] }
      2026).1 (by decide) (by decide)
    refine ⟨h.1, ⟨_, List.Mem.head _, ?_⟩⟩
    have h2 := h.2 _ (List.Mem.head _)
    rw [h2]
    rfl
  · have h := (c6_theorem
      { header := ["revenue_adj", "budget_adj"],
        rows := [[Value.str "80", Value.str "20"]] }
      2026).2.1 (by decide) (by decide) (by decide)
    refine ⟨_, List.Mem.head _, ?_⟩
    have h2 := h.2 _ (List.Mem.head _)
    rw [h2]
    rfl

/-! ### Claims C7, C8, C9: revenue extremes and total -/

lemma firstMaxBy_eq_none {α β : Type} (f : α → β) [LinearOrder β] {l : List α} :
    firstMaxBy f l = none ↔ l = [] := by
  cases l with
  | nil => simp [firstMaxBy]
  | cons a as =>
    rcases h : firstMaxBy f as with _ | b <;> simp [firstMaxBy, h]
    split <;> simp

lemma firstMinBy_eq_none {α β : Type} (f : α → β) [LinearOrder β] {l : List α} :
    firstMinBy f l = none ↔ l = [] := by
  cases l with
  | nil => simp [firstMinBy]
  | cons a as =>
    rcases h : firstMinBy f as with _ | b <;> simp [firstMinBy, h]
    split <;> simp

/-- `idxmax` semantics: the selected element is a maximum and every
element strictly before it is strictly below it. -/
lemma firstMaxBy_spec {α β : Type} (f : α → β) [LinearOrder β] :
    ∀ {l : List α} {a : α}, firstMaxBy f l = some a →
      ∃ l1 l2, l = l1 ++ a :: l2 ∧ (∀ x ∈ l1, f x < f a) ∧ ∀ x ∈ l, f x ≤ f a := by
  intro l
  induction l with
  | nil => intro a h; simp [firstMaxBy] at h
  | cons b bs ih =>
    intro a h
    rw [firstMaxBy] at h
    rcases hbs : firstMaxBy f bs with _ | c
    · simp only [hbs] at h
      cases h
      have hnil : bs = [] := (firstMaxBy_eq_none f).mp hbs
      subst hnil
      exact ⟨[], [], rfl, by simp, by simp⟩
    · simp only [hbs] at h
      obtain ⟨m1, m2, hdec, hlt, hle⟩ := ih hbs
      by_cases hcmp : f b < f c
      · rw [if_pos hcmp] at h
        cases h
        refine ⟨b :: m1, m2, by rw [hdec]; rfl, ?_, ?_⟩
        · intro x hx
          rcases List.mem_cons.mp hx with rfl | hx
          · exact hcmp
          · exact hlt x hx
        · intro x hx
          rcases List.mem_cons.mp hx with rfl | hx
          · exact le_of_lt hcmp
          · exact hle x hx
      · rw [if_neg hcmp] at h
        cases h
        refine ⟨[], bs, rfl, by simp, ?_⟩
        intro x hx
        rcases List.mem_cons.mp hx with rfl | hx
        · exact le_refl _
        · exact le_trans (hle x hx) (not_lt.mp hcmp)

/-- `idxmin` semantics: the selected element is a minimum and every
element strictly before it is strictly above it. -/
lemma firstMinBy_spec {α β : Type} (f : α → β) [LinearOrder β] :
    ∀ {l : List α} {a : α}, firstMinBy f l = some a →
      ∃ l1 l2, l = l1 ++ a :: l2 ∧ (∀ x ∈ l1, f a < f x) ∧ ∀ x ∈ l, f a ≤ f x := by
  intro l
  induction l with
  | nil => intro a h; simp [firstMinBy] at h
  | cons b bs ih =>
    intro a h
    rw [firstMinBy] at h
    rcases hbs : firstMinBy f bs with _ | c
    · simp only [hbs] at h
      cases h
      have hnil : bs = [] := (firstMinBy_eq_none f).mp hbs
      subst hnil
      exact ⟨[], [], rfl, by simp, by simp⟩
    · simp only [hbs] at h
      obtain ⟨m1, m2, hdec, hlt, hle⟩ := ih hbs
      by_cases hcmp : f c < f b
      · rw [if_pos hcmp] at h
        cases h
        refine ⟨b :: m1, m2, by rw [hdec]; rfl, ?_, ?_⟩
        · intro x hx
          rcases List.mem_cons.mp hx with rfl | hx
          · exact hcmp
          · exact hlt x hx
        · intro x hx
          rcases List.mem_cons.mp hx with rfl | hx
          · exact le_of_lt hcmp
          · exact hle x hx
      · rw [if_neg hcmp] at h
        cases h
        refine ⟨[], bs, rfl, by simp, ?_⟩
        intro x hx
        rcases List.mem_cons.mp hx with rfl | hx
        · exact le_refl _
        · exact le_trans (not_lt.mp hcmp) (hle x hx)

/-- C7: Q3 on a table with a revenue column of numeric-or-null cells.
If no row survives the positive-revenue filter, the result is an empty
table with exactly the columns `type, original_title, revenue`;
otherwise the result is exactly two rows tagged `highest_revenue` and
`lowest_revenue`, where the chosen rows are the first in source order to
achieve the maximal and minimal surviving revenue. -/
theorem c7_theorem (t : Table)
    (hrev : (colIdx t.header "revenue").isSome = true)
    (_hty : ∀ r ∈ t.rows, isNumOrNull (colCell t "revenue" r) = true) :
    (survivors t = [] →
      q3_highest_lowest_revenue t =
        Except.ok { header := ["type", "original_title", "revenue"], rows := [] }) ∧
      (survivors t ≠ [] →
        ∃ rmax rmin,
          q3_highest_lowest_revenue t =
            Except.ok
              { header := "type" :: q3cols t,
                rows := [q3row t "highest_revenue" rmax,
                         q3row t "lowest_revenue" rmin] } ∧
            (∃ l1 l2, survivors t = l1 ++ rmax :: l2 ∧
              ∀ x ∈ l1, revRat t x < revRat t rmax) ∧
            (∀ x ∈ survivors t, revRat t x ≤ revRat t rmax) ∧
            (∃ l1 l2, survivors t = l1 ++ rmin :: l2 ∧
              ∀ x ∈ l1, revRat t rmin < revRat t x) ∧
            ∀ x ∈ survivors t, revRat t rmin ≤ revRat t x) := by
  obtain ⟨i, hi⟩ := Option.isSome_iff_exists.mp hrev
  constructor
  · intro hs
    simp [q3_highest_lowest_revenue, hi, hs, firstMaxBy]
  · intro hs
    obtain ⟨rmax, hmax⟩ : ∃ r, firstMaxBy (revRat t) (survivors t) = some r := by
      rcases h : firstMaxBy (revRat t) (survivors t) with _ | r
      · exact absurd ((firstMaxBy_eq_none _).mp h) hs
      · exact ⟨r, rfl⟩
    obtain ⟨rmin, hmin⟩ : ∃ r, firstMinBy (revRat t) (survivors t) = some r := by
      rcases h : firstMinBy (revRat t) (survivors t) with _ | r
      · exact absurd ((firstMinBy_eq_none _).mp h) hs
      · exact ⟨r, rfl⟩
    obtain ⟨m1, m2, hdec1, hlt1, hle1⟩ := firstMaxBy_spec (revRat t) hmax
    obtain ⟨n1, n2, hdec2, hlt2, hle2⟩ := firstMinBy_spec (revRat t) hmin
    exact ⟨rmax, rmin, by simp [q3_highest_lowest_revenue, hi, hmax, hmin],
      ⟨m1, m2, hdec1, hlt1⟩, hle1, ⟨n1, n2, hdec2, hlt2⟩, hle2⟩

/-- C7 (witness): a concrete table whose revenues are `0` and null gives
the empty result table with exactly the three promised columns. -/
theorem c7_witness :
    q3_highest_lowest_revenue
        { header := ["original_title", "revenue"],
          rows := [[Value.str "A", Value.num 0], [Value.str "B", Value.null]] } =
      Except.ok { header := ["type", "original_title", "revenue"], rows := [] } :=
  (c7_theorem
    { header := ["original_title", "revenue"],
      rows := [[Value.str "A", Value.num 0], [Value.str "B", Value.null]] }
    (by decide) (by decide)).1 (by decide)

/-- C8: when exactly one row survives Q3's filter, both output rows
describe that same movie — one tagged `highest_revenue` and one tagged
`lowest_revenue` — never collapsed into a single row. -/
theorem c8_theorem (t : Table) (r : List Value)
    (hrev : (colIdx t.header "revenue").isSome = true)
    (hone : survivors t = [r]) :
    q3_highest_lowest_revenue t =
      Except.ok
        { header := "type" :: q3cols t,
          rows := [q3row t "highest_revenue" r, q3row t "lowest_revenue" r] } := by
  obtain ⟨i, hi⟩ := Option.isSome_iff_exists.mp hrev
  have hmax : firstMaxBy (revRat t) (survivors t) = some r := by rw [hone]; rfl
  have hmin : firstMinBy (revRat t) (survivors t) = some r := by rw [hone]; rfl
  simp [q3_highest_lowest_revenue, hi, hmax, hmin]

/-- C8 (witness): with the single positive-revenue movie `"A"` (revenue
7), Q3 returns two rows, both about `"A"`. -/
theorem c8_witness :
    q3_highest_lowest_revenue
        { header := ["original_title", "revenue"],
          rows := [[Value.str "A", Value.num 7], [Value.str "B", Value.num 0]] } =
      Except.ok
        { header := ["type", "original_title", "revenue"],
          rows := [[Value.str "highest_revenue", Value.str "A", Value.num 7],
                   [Value.str "lowest_revenue", Value.str "A", Value.num 7]] } := by
  have h := c8_theorem
    { header := ["original_title", "revenue"],
      rows := [[Value.str "A", Value.num 7], [Value.str "B", Value.num 0]] }
    [Value.str "A", Value.num 7] (by decide) (by decide)
  rw [h]
  decide

/-- C9: when no row has positive revenue (each revenue cell is null,
zero or negative), Q4 still returns a one-row table whose single
`total_revenue` cell is 0 — it neither fails nor returns an empty
table. -/
theorem c9_theorem (t : Table)
    (hrev : (colIdx t.header "revenue").isSome = true)
    (hnone : ∀ r ∈ t.rows, vPos (colCell t "revenue" r) = false) :
    q4_total_revenue t =
      Except.ok { header := ["total_revenue"], rows := [[Value.num 0]] } := by
  obtain ⟨i, hi⟩ := Option.isSome_iff_exists.mp hrev
  have hsurv : survivors t = [] := by
    unfold survivors
    apply List.filter_eq_nil_iff.mpr
    intro r hr
    simp [hnone r (List.mem_of_mem_filter hr)]
  simp [q4_total_revenue, hi, hsurv]

/-- C9 (witness): revenues `0`, null and `-3` are all filtered out, yet
Q4 returns the single row `total_revenue = 0`. -/
theorem c9_witness :
    q4_total_revenue
        { header := ["revenue"],
          rows := [[Value.num 0], [Value.null], [Value.num (-3)]] } =
      Except.ok { header := ["total_revenue"], rows := [[Value.num 0]] } :=
  c9_theorem
    { header := ["revenue"], rows := [[Value.num 0], [Value.null], [Value.num (-3)]] }
    (by decide) (by decide)

/-! ### Claim C10: Q6 counts exploded cast tokens, not distinct movies -/

/-- C10: on a table whose single row has the cast value `"A|A"`, Q6
reports the actor `"A"` with `movie_count` 2 — the count of exploded
cast tokens — while only 1 row of the table mentions the actor at all,
so the reported count exceeds the number of rows mentioning the
actor. -/
theorem c10_theorem :
    q6_top_director_and_actor { header := ["cast"], rows := [[Value.str "A|A"]] } =
      { header := ["role", "name", "movie_count"],
        rows := [[Value.str "actor", Value.str "A", Value.num 2]] } ∧
      ((({ header := ["cast"], rows := [[Value.str "A|A"]] } : Table)).rows.filter
        (fun r => decide ("A" ∈ splitTokens (getCell r 0)))).length = 1 := by
  constructor <;> decide

end MovieETL
